import Mathlib

/-!
# Verification of the CIRCT bug-survey analysis

Shallow embedding of the record classifier, label predicate and bug-mention
linker of `analysis.ipynb`, together with theorems settling the spec's claims.

Dataframes are modelled as lists of rows paired with their positional index
(`List (Nat × RawRecord)`), mirroring pandas' persistent row index across
boolean-mask filtering.  Python's `json.loads` is modelled by an executable
JSON parser, and exceptions (`JSONDecodeError`, `TypeError`, `KeyError`)
by an `Except` monad.
-/

/-! ## Mention extraction: `str.extractall("#(\d{1,4})")` -/

/-- Parse a run of decimal digits into a number (`int(...)` on the match). -/
def digitsToNat (ds : List Char) : Nat :=
  ds.foldl (fun a c => 10 * a + (c.toNat - 48)) 0

/-- Left-to-right non-overlapping scan for the regex `#(\d{1,4})`:
at a `#`, greedily take up to four following digits as a match and resume
after them; otherwise advance one character.  Structural recursion on a fuel
bound; every step consumes at least one character, so any fuel at least the
length of the input gives the full scan. -/
def scanMentionsF : Nat → List Char → List (List Char)
  | 0, _ => []
  | _ + 1, [] => []
  | fuel + 1, c :: rest =>
    if c = '#' then
      let ds := (rest.takeWhile Char.isDigit).take 4
      if ds.isEmpty then scanMentionsF fuel rest
      else ds :: scanMentionsF fuel (rest.drop ds.length)
    else scanMentionsF fuel rest

/-- The scan with sufficient fuel. -/
def scanMentions (cs : List Char) : List (List Char) :=
  scanMentionsF (cs.length + 1) cs

/-- All `#`-mention numbers of a string, in match order: the model of
`Series.str.extractall("#(\d{1,4})")` applied to one cell, with each captured
digit group parsed by `int`. -/
def extractall_mentions (s : String) : List Nat :=
  (scanMentions s.toList).map digitsToNat

/-! ## The raw export rows and the record classifier -/

/-- One row of the flat CSV export.  Timestamp columns are `Option`s whose
`none` models a `NaN` cell; the remaining columns used by the analysis are
always populated (comments inherit every column of their thread head). -/
structure RawRecord where
  url : String
  html_url : String
  closed_at : Option String
  labels : String
  body : String
  comment_created_at : Option String
  comment_body : String
  number : Nat
deriving DecidableEq

/-- Substring search on character lists (`pandas.Series.str.contains` with a
pattern free of regex metacharacters). -/
def containsSub (hay pat : List Char) : Bool :=
  match hay with
  | [] => pat.isEmpty
  | _ :: rest => pat.isPrefixOf hay || containsSub rest pat

/-- `Series.str.contains(pat)` for a plain-text pattern. -/
def str_contains (s pat : String) : Bool :=
  containsSub s.toList pat.toList

/-- `closed_filter = ~pd.isna(df["issue.closed_at"])` on one row. -/
def closed_filter (r : RawRecord) : Bool :=
  r.closed_at.isSome

/-- `pr_filter = closed_prs_and_issues["issue.html_url"].str.contains("pull")`
on one row. -/
def pr_filter (r : RawRecord) : Bool :=
  str_contains r.html_url "pull"

/-- `~pd.isna(df["comment.created_at"])` on one row: the row is a comment. -/
def comment_present (r : RawRecord) : Bool :=
  r.comment_created_at.isSome

/-- The dataframe with its positional row index attached. -/
def dfIndexed (df : List RawRecord) : List (Nat × RawRecord) :=
  df.enum

/-- `closed_prs_and_issues = df[closed_filter]`. -/
def closed_prs_and_issues (df : List RawRecord) : List (Nat × RawRecord) :=
  (dfIndexed df).filter (fun p => closed_filter p.2)

/-- `prs_and_comments = closed_prs_and_issues[pr_filter]`. -/
def prs_and_comments (df : List RawRecord) : List (Nat × RawRecord) :=
  (closed_prs_and_issues df).filter (fun p => pr_filter p.2)

/-- `issues_and_comments = closed_prs_and_issues[~pr_filter]`. -/
def issues_and_comments (df : List RawRecord) : List (Nat × RawRecord) :=
  (closed_prs_and_issues df).filter (fun p => !pr_filter p.2)

/-- `prs = prs_and_comments[pr_comment_filter]` where
`pr_comment_filter = pd.isna(prs_and_comments["comment.created_at"])`. -/
def prs (df : List RawRecord) : List (Nat × RawRecord) :=
  (prs_and_comments df).filter (fun p => !comment_present p.2)

/-- `pr_comments = prs_and_comments[~pr_comment_filter]`. -/
def pr_comments (df : List RawRecord) : List (Nat × RawRecord) :=
  (prs_and_comments df).filter (fun p => comment_present p.2)

/-- `issues = issues_and_comments[issue_comment_filter]`. -/
def issues (df : List RawRecord) : List (Nat × RawRecord) :=
  (issues_and_comments df).filter (fun p => !comment_present p.2)

/-- `issue_comments = issues_and_comments[~issue_comment_filter]`. -/
def issue_comments (df : List RawRecord) : List (Nat × RawRecord) :=
  (issues_and_comments df).filter (fun p => comment_present p.2)

/-! ## The bug-mention linker

`extractall` over a column yields a series multi-indexed by
`(original row index, match number)`; we model it as an association list
`((row, match), value)`. -/

/-- `mentioned_numbers = prs["issue.body"].str.extractall("#(\d{1,4})")[0]`
(with `int` applied to each entry, as `does_mention_bug` later does). -/
def mentioned_numbers (df : List RawRecord) : List ((Nat × Nat) × Nat) :=
  (prs df).flatMap
    (fun p => (extractall_mentions p.2.body).enum.map (fun q => ((p.1, q.1), q.2)))

/-- `mentioned_numbers_comments =
pr_comments["comment.body"].str.extractall("#(\d{1,4})")[0]`. -/
def mentioned_numbers_comments (df : List RawRecord) : List ((Nat × Nat) × Nat) :=
  (pr_comments df).flatMap
    (fun p => (extractall_mentions p.2.comment_body).enum.map (fun q => ((p.1, q.1), q.2)))

/-- `def does_mention_bug(numbers)`: true iff some number of the list occurs
in `bug_numbers.values`. -/
def does_mention_bug (bug_numbers : List Nat) (numbers : List Nat) : Bool :=
  numbers.any (fun n => bug_numbers.contains n)

/-- `(idx, 0) in series.index` for the multi-indexed extraction series. -/
def indexHas (series : List ((Nat × Nat) × Nat)) (key : Nat × Nat) : Bool :=
  series.any (fun e => e.1 == key)

/-- `series.loc[idx]`: all values whose first index level equals `idx`,
in order. -/
def locRow (series : List ((Nat × Nat) × Nat)) (idx : Nat) : List Nat :=
  (series.filter (fun e => e.1.1 == idx)).map (fun e => e.2)

/-- The loop building `mention_filter_data`: for each PR-head row index,
`mentions_bug` is the disjunction of the two guarded `does_mention_bug`
checks of the source. -/
def mention_filter_data (bug_numbers : List Nat) (df : List RawRecord) : List Bool :=
  (prs df).map (fun p =>
    (if indexHas (mentioned_numbers df) (p.1, 0) then
       does_mention_bug bug_numbers (locRow (mentioned_numbers df) p.1)
     else false)
    ||
    (if indexHas (mentioned_numbers_comments df) (p.1, 0) then
       does_mention_bug bug_numbers (locRow (mentioned_numbers_comments df) p.1)
     else false))

/-- `prs_that_mention = prs[mention_filter]`. -/
def prs_that_mention (bug_numbers : List Nat) (df : List RawRecord) :
    List (Nat × RawRecord) :=
  ((prs df).zip (mention_filter_data bug_numbers df)).filterMap
    (fun pb => if pb.2 then some pb.1 else none)

/-! ## `json.loads` and the label predicate

A Python value decoded from JSON, and the exceptions `has_label` can raise.
Numbers keep their lexeme (the label analysis never inspects them). -/

inductive Json where
  | null
  | bool (b : Bool)
  | num (lexeme : String)
  | str (s : String)
  | arr (elems : List Json)
  | obj (fields : List (String × Json))

inductive PyErr where
  | jsonDecodeError
  | typeError
  | keyError (k : String)
deriving DecidableEq

/-- JSON whitespace. -/
def isJsonWs (c : Char) : Bool :=
  c = ' ' || c = '\t' || c = '\n' || c = '\r'

def skipWs (cs : List Char) : List Char :=
  cs.dropWhile isJsonWs

/-- Value of a hexadecimal digit. -/
def hexVal (c : Char) : Option Nat :=
  if c.isDigit then some (c.toNat - 48)
  else if 'a' ≤ c ∧ c ≤ 'f' then some (c.toNat - 87)
  else if 'A' ≤ c ∧ c ≤ 'F' then some (c.toNat - 55)
  else none

/-- Body of a JSON string after the opening quote, with the standard escapes;
an unescaped control character is rejected (`json.loads` default `strict`). -/
def parseStringBody (acc : List Char) : List Char → Except PyErr (String × List Char)
  | [] => .error .jsonDecodeError
  | '"' :: rest => .ok (String.mk acc.reverse, rest)
  | '\\' :: rest =>
    match rest with
    | [] => .error .jsonDecodeError
    | e :: rest2 =>
      if e = '"' then parseStringBody ('"' :: acc) rest2
      else if e = '\\' then parseStringBody ('\\' :: acc) rest2
      else if e = '/' then parseStringBody ('/' :: acc) rest2
      else if e = 'b' then parseStringBody ('\x08' :: acc) rest2
      else if e = 'f' then parseStringBody ('\x0c' :: acc) rest2
      else if e = 'n' then parseStringBody ('\n' :: acc) rest2
      else if e = 'r' then parseStringBody ('\r' :: acc) rest2
      else if e = 't' then parseStringBody ('\t' :: acc) rest2
      else if e = 'u' then
        match rest2 with
        | h1 :: h2 :: h3 :: h4 :: rest3 =>
          match hexVal h1, hexVal h2, hexVal h3, hexVal h4 with
          | some a, some b, some c, some d =>
            parseStringBody (Char.ofNat (4096 * a + 256 * b + 16 * c + d) :: acc) rest3
          | _, _, _, _ => .error .jsonDecodeError
        | _ => .error .jsonDecodeError
      else .error .jsonDecodeError
  | c :: rest =>
    if c.toNat < 32 then .error .jsonDecodeError
    else parseStringBody (c :: acc) rest

/-- Fraction part of the JSON number regex `(\.\d+)?`: consumed only when a
dot with at least one digit follows. -/
def lexFrac (cs : List Char) : List Char × List Char :=
  match cs with
  | '.' :: r =>
    let ds := r.takeWhile Char.isDigit
    if ds.isEmpty then ([], cs) else ('.' :: ds, r.drop ds.length)
  | _ => ([], cs)

/-- Exponent part of the JSON number regex `([eE][-+]?\d+)?`. -/
def lexExp (cs : List Char) : List Char × List Char :=
  match cs with
  | c :: r =>
    if c = 'e' ∨ c = 'E' then
      match r with
      | s :: r2 =>
        if s = '+' ∨ s = '-' then
          let ds := r2.takeWhile Char.isDigit
          if ds.isEmpty then ([], cs) else (c :: s :: ds, r2.drop ds.length)
        else
          let ds := r.takeWhile Char.isDigit
          if ds.isEmpty then ([], cs) else (c :: ds, r.drop ds.length)
      | [] => ([], cs)
    else ([], cs)
  | [] => ([], cs)

/-- Lexeme of an unsigned JSON number (`0|[1-9]\d*` then fraction and
exponent), maximal munch as in CPython's `NUMBER_RE`. -/
def lexNumber (cs : List Char) : Except PyErr (List Char × List Char) :=
  match cs with
  | '0' :: rest =>
    let (f, rest2) := lexFrac rest
    let (e, rest3) := lexExp rest2
    .ok ('0' :: (f ++ e), rest3)
  | c :: rest =>
    if c.isDigit then
      let ds := rest.takeWhile Char.isDigit
      let rest1 := rest.drop ds.length
      let (f, rest2) := lexFrac rest1
      let (e, rest3) := lexExp rest2
      .ok (c :: ds ++ f ++ e, rest3)
    else .error .jsonDecodeError
  | [] => .error .jsonDecodeError

/-- Python-dict insertion: replace the value at an existing key in place,
else append. -/
def dictInsert (kvs : List (String × Json)) (k : String) (v : Json) :
    List (String × Json) :=
  match kvs with
  | [] => [(k, v)]
  | kv :: rest => if kv.1 = k then (k, v) :: rest else kv :: dictInsert rest k v

mutual

/-- Recursive-descent JSON value parser on explicit fuel; every recursive call
strictly decreases the fuel and consumes at least one character, so fuel
`2 * length + 4` always suffices. -/
def parseValue : Nat → List Char → Except PyErr (Json × List Char)
  | 0, _ => .error .jsonDecodeError
  | fuel + 1, cs0 =>
    match skipWs cs0 with
    | 'n' :: 'u' :: 'l' :: 'l' :: rest => .ok (.null, rest)
    | 't' :: 'r' :: 'u' :: 'e' :: rest => .ok (.bool true, rest)
    | 'f' :: 'a' :: 'l' :: 's' :: 'e' :: rest => .ok (.bool false, rest)
    | '"' :: rest => do
      let (s, rest2) ← parseStringBody [] rest
      .ok (.str s, rest2)
    | '[' :: rest =>
      (match skipWs rest with
       | ']' :: rest2 => .ok (.arr [], rest2)
       | rest1 => do
         let (v, rest2) ← parseValue fuel rest1
         let (vs, rest3) ← parseArrayTail fuel rest2
         .ok (.arr (v :: vs), rest3))
    | '\x7b' :: rest =>
      (match skipWs rest with
       | '\x7d' :: rest2 => .ok (.obj [], rest2)
       | rest1 => do
         let (kv, rest2) ← parsePair fuel rest1
         let (kvs, rest3) ← parseObjTail fuel rest2
         .ok (.obj ((kv :: kvs).foldl (fun m p => dictInsert m p.1 p.2) []), rest3))
    | '-' :: rest => do
      let (lex, rest2) ← lexNumber rest
      .ok (.num (String.mk ('-' :: lex)), rest2)
    | c :: rest =>
      if c.isDigit then do
        let (lex, rest2) ← lexNumber (c :: rest)
        .ok (.num (String.mk lex), rest2)
      else .error .jsonDecodeError
    | [] => .error .jsonDecodeError

/-- Remaining elements of an array after the first: `, value` repeated until
`]`. -/
def parseArrayTail : Nat → List Char → Except PyErr (List Json × List Char)
  | 0, _ => .error .jsonDecodeError
  | fuel + 1, cs0 =>
    match skipWs cs0 with
    | ']' :: rest => .ok ([], rest)
    | ',' :: rest => do
      let (v, rest2) ← parseValue fuel rest
      let (vs, rest3) ← parseArrayTail fuel rest2
      .ok (v :: vs, rest3)
    | _ => .error .jsonDecodeError

/-- One `"key": value` member of an object. -/
def parsePair : Nat → List Char → Except PyErr ((String × Json) × List Char)
  | 0, _ => .error .jsonDecodeError
  | fuel + 1, cs0 =>
    match skipWs cs0 with
    | '"' :: rest => do
      let (k, rest2) ← parseStringBody [] rest
      match skipWs rest2 with
      | ':' :: rest3 => do
        let (v, rest4) ← parseValue fuel rest3
        .ok ((k, v), rest4)
      | _ => .error .jsonDecodeError
    | _ => .error .jsonDecodeError

/-- Remaining members of an object after the first: `, "key": value` repeated
until the closing brace. -/
def parseObjTail : Nat → List Char → Except PyErr (List (String × Json) × List Char)
  | 0, _ => .error .jsonDecodeError
  | fuel + 1, cs0 =>
    match skipWs cs0 with
    | '\x7d' :: rest => .ok ([], rest)
    | ',' :: rest => do
      let (kv, rest2) ← parsePair fuel rest
      let (kvs, rest3) ← parseObjTail fuel rest2
      .ok (kv :: kvs, rest3)
    | _ => .error .jsonDecodeError

end

/-- `json.loads`: parse one JSON document and reject trailing garbage. -/
def json_loads (s : String) : Except PyErr Json :=
  let cs := s.toList
  match parseValue (2 * cs.length + 4) cs with
  | .error e => .error e
  | .ok (j, rest) => if (skipWs rest).isEmpty then .ok j else .error .jsonDecodeError

/-- Python iteration `for label in labels`: a list yields its elements, a dict
its keys, a string its characters (as one-character strings); other values
raise `TypeError`. -/
def pyIter : Json → Except PyErr (List Json)
  | .arr l => .ok l
  | .obj kvs => .ok (kvs.map (fun kv => Json.str kv.1))
  | .str s => .ok (s.toList.map (fun c => Json.str (String.mk [c])))
  | _ => .error .typeError

/-- Python subscription `label[key]` with a string key: dict lookup with
`KeyError` when absent, `TypeError` on any non-dict. -/
def pySubscr (j : Json) (key : String) : Except PyErr Json :=
  match j with
  | .obj kvs =>
    match kvs.find? (fun kv => kv.1 == key) with
    | some kv => .ok kv.2
    | none => .error (.keyError key)
  | _ => .error .typeError

/-- Python `==` between a decoded JSON value and a `str`: true only for an
equal string; any cross-type comparison is `False`, never an error. -/
def pyEqStr (j : Json) (s : String) : Bool :=
  match j with
  | .str t => t == s
  | _ => false

/-- The `for label in labels` loop of `has_label`: return `True` at the first
element whose `"name"` entry equals `label_name`, else fall through to
`False`; subscription errors propagate. -/
def has_label_loop (label_name : String) : List Json → Except PyErr Bool
  | [] => .ok false
  | label :: rest => do
    let v ← pySubscr label "name"
    if pyEqStr v label_name then .ok true
    else has_label_loop label_name rest

/-- `def has_label(item, label_name)` of the notebook. -/
def has_label (item label_name : String) : Except PyErr Bool := do
  let labels ← json_loads item
  let it ← pyIter labels
  has_label_loop label_name it

/-- `def is_bug(item)` of the notebook. -/
def is_bug (item : String) : Except PyErr Bool :=
  has_label item "bug"

/-! ## Bug issues, label counts and proportions -/

/-- `frame[mask]` where the mask is produced by `apply(p)` and the applied
function can raise: the first raised exception aborts the whole computation,
as `Series.apply` does. -/
def filterE (p : RawRecord → Except PyErr Bool) : List RawRecord → Except PyErr (List RawRecord)
  | [] => .ok []
  | r :: rest => do
    let b ← p r
    let tail ← filterE p rest
    .ok (if b then r :: tail else tail)

/-- `frame.apply(p).sum()` over booleans, with the same abort-on-exception
behaviour. -/
def countTrueE (p : RawRecord → Except PyErr Bool) : List RawRecord → Except PyErr Nat
  | [] => .ok 0
  | r :: rest => do
    let b ← p r
    let n ← countTrueE p rest
    .ok ((if b then 1 else 0) + n)

/-- `bug_issues = issues[issues["issue.labels"].apply(is_bug)]`, over the rows
of the issues table. -/
def bug_issues (issue_rows : List RawRecord) : Except PyErr (List RawRecord) :=
  filterE (fun r => is_bug r.labels) issue_rows

/-- `bug_numbers = bug_issues["issue.number"]`. -/
def bug_numbers_of (issue_rows : List RawRecord) : Except PyErr (List Nat) :=
  Except.map (fun l => l.map (fun r => r.number)) (bug_issues issue_rows)

/-- `label_count = bug_issues["issue.labels"].apply(lambda item:
has_label(item, bug_label)).sum()`. -/
def label_count (bug_label : String) (bugs : List RawRecord) : Except PyErr Nat :=
  countTrueE (fun r => has_label r.labels bug_label) bugs

/-- `label_count / total_bugs`, in exact rational arithmetic. -/
def label_proportion (c total : Nat) : ℚ :=
  (c : ℚ) / (total : ℚ)

/-- The spec's phrase "a sequence of label objects": a JSON array each of
whose elements is an object carrying a `"name"` member.  Stated from the
spec's words, to compare the spec's error contract against `has_label`. -/
def isSeqOfLabelObjs : Json → Bool
  | .arr l =>
    l.all (fun e =>
      match e with
      | .obj kvs => (kvs.find? (fun kv => kv.1 == "name")).isSome
      | _ => false)
  | _ => false

/-- Decode the labels string, discard the result, and run `has_label` (which
decodes it again): the "re-decode" reading of the spec's idempotence
property. -/
def has_label_redecoded (item label_name : String) : Except PyErr Bool := do
  let _ ← json_loads item
  has_label item label_name

/-! ## Concrete rows used as witnesses and counterexamples -/

/-- A closed pull-request head row with an empty description. -/
def prHeadRec : RawRecord where
  url := "https://api.github.com/repos/llvm/circt/issues/120"
  html_url := "https://github.com/llvm/circt/pull/120"
  closed_at := some "2022-12-01T00:00:00Z"
  labels := "[]"
  body := ""
  comment_created_at := none
  comment_body := ""
  number := 120

/-- A comment row of the same pull-request thread whose text mentions #99. -/
def prCommentRec : RawRecord where
  url := "https://api.github.com/repos/llvm/circt/issues/120"
  html_url := "https://github.com/llvm/circt/pull/120"
  closed_at := some "2022-12-01T00:00:00Z"
  labels := "[]"
  body := ""
  comment_created_at := some "2022-12-02T00:00:00Z"
  comment_body := "this fixes #99"
  number := 120

/-- The two-row export: one pull request with one comment. -/
def dfLink : List RawRecord := [prHeadRec, prCommentRec]

/-- A closed row whose `html_url` has neither an issue nor a pull path. -/
def badUrlRec : RawRecord where
  url := "https://api.github.com/repos/llvm/circt/garbage/77"
  html_url := "https://example.com/garbage"
  closed_at := some "2022-12-01T00:00:00Z"
  labels := "[]"
  body := ""
  comment_created_at := none
  comment_body := ""
  number := 77

/-- A row that was never closed. -/
def openRec : RawRecord where
  url := "https://api.github.com/repos/llvm/circt/issues/55"
  html_url := "https://github.com/llvm/circt/issues/55"
  closed_at := none
  labels := "[]"
  body := "still open"
  comment_created_at := none
  comment_body := ""
  number := 55

/-- A closed issue head row labeled "bug". -/
def bugIssueRec : RawRecord where
  url := "https://api.github.com/repos/llvm/circt/issues/12"
  html_url := "https://github.com/llvm/circt/issues/12"
  closed_at := some "2022-12-01T00:00:00Z"
  labels := "[\x7b\"name\": \"bug\"\x7d]"
  body := "firtool crashes"
  comment_created_at := none
  comment_body := ""
  number := 12


/-! ## Helper lemmas -/

/-- `Except` bind on a success. -/
theorem except_bind_ok {α β : Type} (a : α) (f : α → Except PyErr β) :
    (Except.ok a >>= f) = f a := rfl

/-- `Except` bind on a failure. -/
theorem except_bind_error {α β : Type} (e : PyErr) (f : α → Except PyErr β) :
    ((Except.error e : Except PyErr α) >>= f) = Except.error e := rfl

/-- A boolean filter and its negation split the length of a list. -/
theorem length_filter_partition {α : Type} (l : List α) (f : α → Bool) :
    (l.filter f).length + (l.filter (fun a => !f a)).length = l.length := by
  induction l with
  | nil => rfl
  | cons a t ih => cases h : f a <;> simp [List.filter_cons, h] <;> omega

/-- Membership in `closed_prs_and_issues`, characterised. -/
theorem mem_closed_iff (df : List RawRecord) (p : Nat × RawRecord) :
    p ∈ closed_prs_and_issues df ↔ p ∈ dfIndexed df ∧ closed_filter p.2 = true := by
  simp [closed_prs_and_issues, List.mem_filter]

/-- Membership in `prs`, characterised. -/
theorem mem_prs_iff (df : List RawRecord) (p : Nat × RawRecord) :
    p ∈ prs df ↔
      p ∈ closed_prs_and_issues df ∧ pr_filter p.2 = true ∧ comment_present p.2 = false := by
  simp only [prs, prs_and_comments, List.mem_filter, Bool.not_eq_true', and_assoc]

/-- Membership in `pr_comments`, characterised. -/
theorem mem_pr_comments_iff (df : List RawRecord) (p : Nat × RawRecord) :
    p ∈ pr_comments df ↔
      p ∈ closed_prs_and_issues df ∧ pr_filter p.2 = true ∧ comment_present p.2 = true := by
  simp only [pr_comments, prs_and_comments, List.mem_filter, Bool.not_eq_true', and_assoc]

/-- Membership in `issues`, characterised. -/
theorem mem_issues_iff (df : List RawRecord) (p : Nat × RawRecord) :
    p ∈ issues df ↔
      p ∈ closed_prs_and_issues df ∧ pr_filter p.2 = false ∧ comment_present p.2 = false := by
  simp only [issues, issues_and_comments, List.mem_filter, Bool.not_eq_true', and_assoc]

/-- Membership in `issue_comments`, characterised. -/
theorem mem_issue_comments_iff (df : List RawRecord) (p : Nat × RawRecord) :
    p ∈ issue_comments df ↔
      p ∈ closed_prs_and_issues df ∧ pr_filter p.2 = false ∧ comment_present p.2 = true := by
  simp only [issue_comments, issues_and_comments, List.mem_filter, Bool.not_eq_true', and_assoc]

/-- `containsSub` decides list-infix containment. -/
theorem containsSub_iff_infix (pat hay : List Char) :
    containsSub hay pat = true ↔ pat <:+: hay := by
  induction hay with
  | nil => simp [containsSub, List.isEmpty_iff]
  | cons c rest ih =>
    simp [containsSub, List.infix_cons_iff, List.isPrefixOf_iff_prefix, ih]

/-- Python `==` against a string is true exactly on the equal string value. -/
theorem pyEqStr_eq_true_iff (j : Json) (s : String) :
    pyEqStr j s = true ↔ j = Json.str s := by
  cases j <;> simp [pyEqStr]

/-- When every element can be subscripted at `"name"`, the `has_label` loop
returns `True` exactly when some element's `"name"` value is the sought
string. -/
theorem has_label_loop_ok_true_iff (name : String) :
    ∀ ls : List Json, (∀ l ∈ ls, ∃ v, pySubscr l "name" = .ok v) →
      (has_label_loop name ls = .ok true ↔
        ∃ l ∈ ls, pySubscr l "name" = .ok (.str name)) := by
  intro ls
  induction ls with
  | nil => intro _; simp [has_label_loop]
  | cons l ls ih =>
    intro h
    obtain ⟨v, hv⟩ := h l (by simp)
    have htail := ih (fun x hx => h x (by simp [hx]))
    by_cases hm : pyEqStr v name = true
    · have hvs : v = Json.str name := (pyEqStr_eq_true_iff v name).mp hm
      subst hvs
      simp [has_label_loop, hv, except_bind_ok, hm]
    · have hne : v ≠ Json.str name := fun hvs => hm ((pyEqStr_eq_true_iff v name).mpr hvs)
      have hbm : pyEqStr v name = false := by
        cases hb : pyEqStr v name
        · rfl
        · exact absurd hb hm
      simp only [has_label_loop, hv, except_bind_ok, hbm, Bool.false_eq_true, if_false]
      rw [htail]
      constructor
      · intro ⟨x, hx, hxs⟩
        exact ⟨x, by simp [hx], hxs⟩
      · intro ⟨x, hx, hxs⟩
        rcases List.mem_cons.mp hx with rfl | hx2
        · rw [hv] at hxs
          exact absurd (Except.ok.inj hxs) hne
        · exact ⟨x, hx2, hxs⟩

/-- Every element of a well-formed label sequence subscripts at `"name"`. -/
theorem seq_subscr_ok (ls : List Json) (h : isSeqOfLabelObjs (.arr ls) = true) :
    ∀ l ∈ ls, ∃ v, pySubscr l "name" = .ok v := by
  intro l hl
  have hall := List.all_eq_true.mp h l hl
  cases l with
  | obj kvs =>
    simp only at hall
    cases hf : kvs.find? (fun kv => kv.1 == "name") with
    | none => rw [hf] at hall; simp [Option.isSome] at hall
    | some kv => exact ⟨kv.2, by simp [pySubscr, hf]⟩
  | null => simp at hall
  | bool b => simp at hall
  | num s => simp at hall
  | str s => simp at hall
  | arr l2 => simp at hall

/-- A successful boolean count is bounded by the list length. -/
theorem countTrueE_le (p : RawRecord → Except PyErr Bool) :
    ∀ l c, countTrueE p l = .ok c → c ≤ l.length := by
  intro l
  induction l with
  | nil =>
    intro c hc
    simp only [countTrueE, Except.ok.injEq] at hc
    omega
  | cons r rest ih =>
    intro c hc
    simp only [countTrueE] at hc
    cases hp : p r with
    | error e => rw [hp, except_bind_error] at hc; exact absurd hc (by simp)
    | ok b =>
      rw [hp, except_bind_ok] at hc
      cases hr : countTrueE p rest with
      | error e => rw [hr, except_bind_error] at hc; exact absurd hc (by simp)
      | ok n =>
        rw [hr, except_bind_ok] at hc
        have hn := ih n hr
        have : (if b then 1 else 0) + n = c := Except.ok.inj hc
        cases b <;> simp at this <;> simp [List.length_cons] <;> omega

/-- Rows surviving an exception-free mask filter all satisfied the mask. -/
theorem filterE_mem (p : RawRecord → Except PyErr Bool) :
    ∀ l bs, filterE p l = .ok bs → ∀ r ∈ bs, p r = .ok true := by
  intro l
  induction l with
  | nil =>
    intro bs hbs r hr
    simp only [filterE, Except.ok.injEq] at hbs
    subst hbs
    simp at hr
  | cons x rest ih =>
    intro bs hbs r hr
    simp only [filterE] at hbs
    cases hp : p x with
    | error e => rw [hp, except_bind_error] at hbs; exact absurd hbs (by simp)
    | ok b =>
      rw [hp, except_bind_ok] at hbs
      cases hrest : filterE p rest with
      | error e => rw [hrest, except_bind_error] at hbs; exact absurd hbs (by simp)
      | ok tail =>
        rw [hrest, except_bind_ok] at hbs
        have hbs2 := Except.ok.inj hbs
        cases b with
        | false =>
          simp only [if_false, Bool.false_eq_true] at hbs2
          subst hbs2
          exact ih tail hrest r hr
        | true =>
          simp only [if_true] at hbs2
          subst hbs2
          rcases List.mem_cons.mp hr with rfl | hr2
          · exact hp
          · exact ih tail hrest r hr2

/-- Counting a mask that is true on every row yields the row count. -/
theorem countTrueE_all_true (p : RawRecord → Except PyErr Bool) :
    ∀ l, (∀ r ∈ l, p r = .ok true) → countTrueE p l = .ok l.length := by
  intro l
  induction l with
  | nil => intro _; rfl
  | cons x rest ih =>
    intro h
    have hx : p x = .ok true := h x (by simp)
    have hrest := ih (fun r hr => h r (by simp [hr]))
    simp [countTrueE, hx, hrest, except_bind_ok, List.length_cons, Nat.add_comm]

/-! ## Claim theorems -/

/-- **C1.** The claim says a pull request is linked iff the union of its
body's mentions and its comments' mentions intersects the bug numbers, and in
particular that a PR with empty body but one comment containing "#99" is
linked when 99 is a bug number.  The code instead looks comment mentions up
under the PR head's row index, which never occurs in the comment-mention
series, so on the two-row export `dfLink` the comment's mention of bug 99 is
extracted yet the pull request is not linked. -/
theorem c1_comment_mention_not_linked :
    prs dfLink = [(0, prHeadRec)] ∧
    mentioned_numbers dfLink = [] ∧
    mentioned_numbers_comments dfLink = [((1, 0), 99)] ∧
    mention_filter_data [99] dfLink = [false] ∧
    prs_that_mention [99] dfLink = [] :=
  ⟨rfl, rfl, rfl, rfl, rfl⟩

/-- **C2.** The claimed multiset of mentions of
`"Fixes #12 and references #3456, see #12 again"` is `{12, 3, 456, 12}`;
the 1–4-digit pattern is greedy, so the actual extraction is
`[12, 3456, 12]`, a different multiset. -/
theorem c2_extraction_counterexample :
    (↑(extractall_mentions "Fixes #12 and references #3456, see #12 again") :
        Multiset ℕ) ≠ ({12, 3, 456, 12} : Multiset ℕ) := by
  decide

/-- **C2 (amended).** Extracting mentions from
`"Fixes #12 and references #3456, see #12 again"` yields exactly the
multiset `{12, 3456, 12}` (as the ordered list `[12, 3456, 12]`). -/
theorem c2_extraction_amended :
    extractall_mentions "Fixes #12 and references #3456, see #12 again"
        = [12, 3456, 12] ∧
    (↑(extractall_mentions "Fixes #12 and references #3456, see #12 again") :
        Multiset ℕ) = ({12, 3456, 12} : Multiset ℕ) :=
  ⟨by decide, by decide⟩

/-- **C3.** Mention extraction caps at exactly four digits: `"#3456"` yields
the single mention 3456, and the five-digit run `"#12345"` yields only 1234,
the trailing `5` left unmatched. -/
theorem c3_mention_cap_four_digits :
    extractall_mentions "#3456" = [3456] ∧
    extractall_mentions "#12345" = [1234] :=
  ⟨by decide, by decide⟩

/-- **C4.** The four classified sets partition the closed records: their
sizes sum to the number of closed records, every closed record appears in
exactly one of them, and the sets are pairwise disjoint. -/
theorem c4_classifier_partition (df : List RawRecord) :
    (issues df).length + (issue_comments df).length + (prs df).length
        + (pr_comments df).length = (closed_prs_and_issues df).length ∧
    (∀ p : Nat × RawRecord, p ∈ closed_prs_and_issues df →
      ((p ∈ issues df ∧ p ∉ issue_comments df ∧ p ∉ prs df ∧ p ∉ pr_comments df) ∨
       (p ∉ issues df ∧ p ∈ issue_comments df ∧ p ∉ prs df ∧ p ∉ pr_comments df) ∨
       (p ∉ issues df ∧ p ∉ issue_comments df ∧ p ∈ prs df ∧ p ∉ pr_comments df) ∨
       (p ∉ issues df ∧ p ∉ issue_comments df ∧ p ∉ prs df ∧ p ∈ pr_comments df))) ∧
    (∀ p : Nat × RawRecord,
      ¬(p ∈ issues df ∧ p ∈ issue_comments df) ∧
      ¬(p ∈ issues df ∧ p ∈ prs df) ∧
      ¬(p ∈ issues df ∧ p ∈ pr_comments df) ∧
      ¬(p ∈ issue_comments df ∧ p ∈ prs df) ∧
      ¬(p ∈ issue_comments df ∧ p ∈ pr_comments df) ∧
      ¬(p ∈ prs df ∧ p ∈ pr_comments df)) := by
  refine ⟨?_, ?_, ?_⟩
  · have h1 : (pr_comments df).length + (prs df).length = (prs_and_comments df).length :=
      length_filter_partition (prs_and_comments df) (fun p => comment_present p.2)
    have h2 : (issue_comments df).length + (issues df).length
        = (issues_and_comments df).length :=
      length_filter_partition (issues_and_comments df) (fun p => comment_present p.2)
    have h3 : (prs_and_comments df).length + (issues_and_comments df).length
        = (closed_prs_and_issues df).length :=
      length_filter_partition (closed_prs_and_issues df) (fun p => pr_filter p.2)
    omega
  · intro p hp
    cases hpr : pr_filter p.2 <;> cases hc : comment_present p.2
    · exact Or.inl (by
        simp [mem_issues_iff, mem_issue_comments_iff, mem_prs_iff, mem_pr_comments_iff,
          hp, hpr, hc])
    · exact Or.inr (Or.inl (by
        simp [mem_issues_iff, mem_issue_comments_iff, mem_prs_iff, mem_pr_comments_iff,
          hp, hpr, hc]))
    · exact Or.inr (Or.inr (Or.inl (by
        simp [mem_issues_iff, mem_issue_comments_iff, mem_prs_iff, mem_pr_comments_iff,
          hp, hpr, hc])))
    · exact Or.inr (Or.inr (Or.inr (by
        simp [mem_issues_iff, mem_issue_comments_iff, mem_prs_iff, mem_pr_comments_iff,
          hp, hpr, hc])))
  · intro p
    refine ⟨?_, ?_, ?_, ?_, ?_, ?_⟩ <;>
      rintro ⟨h1, h2⟩ <;>
      simp only [mem_issues_iff, mem_issue_comments_iff, mem_prs_iff,
        mem_pr_comments_iff] at h1 h2 <;>
      simp [h1.2.1, h1.2.2] at h2

/-- **C4 (witness).** The partition theorem applied to the concrete two-row
export at its pull-request head row. -/
theorem c4_classifier_partition_witness :
    (0, prHeadRec) ∈ closed_prs_and_issues dfLink ∧
    (((0, prHeadRec) ∈ issues dfLink ∧ (0, prHeadRec) ∉ issue_comments dfLink ∧
        (0, prHeadRec) ∉ prs dfLink ∧ (0, prHeadRec) ∉ pr_comments dfLink) ∨
     ((0, prHeadRec) ∉ issues dfLink ∧ (0, prHeadRec) ∈ issue_comments dfLink ∧
        (0, prHeadRec) ∉ prs dfLink ∧ (0, prHeadRec) ∉ pr_comments dfLink) ∨
     ((0, prHeadRec) ∉ issues dfLink ∧ (0, prHeadRec) ∉ issue_comments dfLink ∧
        (0, prHeadRec) ∈ prs dfLink ∧ (0, prHeadRec) ∉ pr_comments dfLink) ∨
     ((0, prHeadRec) ∉ issues dfLink ∧ (0, prHeadRec) ∉ issue_comments dfLink ∧
        (0, prHeadRec) ∉ prs dfLink ∧ (0, prHeadRec) ∈ pr_comments dfLink)) :=
  ⟨by decide, (c4_classifier_partition dfLink).2.1 (0, prHeadRec) (by decide)⟩

/-- **C5.** The claim asserts `has_label` fails with a surfaced error
whenever the labels field cannot be decoded as a sequence of label objects.
The JSON text `"\x7b\x7d"` decodes to an empty dict — not a sequence of
label objects — yet `has_label` iterates it vacuously and returns
`Ok false` with no error. -/
theorem c5_haslabel_counterexample :
    json_loads "\x7b\x7d" = .ok (.obj []) ∧
    isSeqOfLabelObjs (.obj []) = false ∧
    has_label "\x7b\x7d" "bug" = .ok false :=
  ⟨rfl, rfl, rfl⟩

/-- **C5 (amended).** `has_label` surfaces every JSON decode failure as an
error, and on any input decoding to a well-formed sequence of label objects
it returns true iff some element's `"name"` field equals the sought name
(exact, case-sensitive); but a decoded value that iterates vacuously (an
empty dict or empty string) returns false without error. -/
theorem c5_haslabel_amended (item name : String) :
    (∀ e, json_loads item = .error e → has_label item name = .error e) ∧
    (∀ ls, json_loads item = .ok (.arr ls) → isSeqOfLabelObjs (.arr ls) = true →
      (has_label item name = .ok true ↔
        ∃ l ∈ ls, pySubscr l "name" = .ok (.str name))) := by
  constructor
  · intro e he
    simp only [has_label, he, except_bind_error]
  · intro ls hok hseq
    have hrw : has_label item name = has_label_loop name ls := by
      simp only [has_label, hok, except_bind_ok]
      rfl
    rw [hrw]
    exact has_label_loop_ok_true_iff name ls (seq_subscr_ok ls hseq)

/-- **C5 (witness).** The amended theorem applied to the one-element label
list `[{"name": "bug"}]` and the name "bug". -/
theorem c5_haslabel_amended_witness :
    has_label "[\x7b\"name\": \"bug\"\x7d]" "bug" = .ok true :=
  ((c5_haslabel_amended "[\x7b\"name\": \"bug\"\x7d]" "bug").2
      [Json.obj [("name", Json.str "bug")]] rfl rfl).mpr
    ⟨Json.obj [("name", Json.str "bug")], by simp, rfl⟩

/-- **C6.** The claim says a closed record whose `html_url` has no
recognizable issue or pull path is rejected with a report rather than
classified.  The code has no rejection path at all: the closed row with
`html_url = "https://example.com/garbage"` — which contains neither
"pull" nor "issue" — is silently placed in the `issues` set. -/
theorem c6_malformed_url_counterexample :
    str_contains badUrlRec.html_url "pull" = false ∧
    str_contains badUrlRec.html_url "issue" = false ∧
    (0, badUrlRec) ∈ issues [badUrlRec] :=
  ⟨rfl, rfl, by decide⟩

/-- **C6 (amended).** A closed record whose `html_url` lacks the substring
"pull" is silently classified on the issue side (into `issues` or
`issue_comments` according to the comment marker) and never rejected; no
error condition exists in the classifier. -/
theorem c6_malformed_url_amended (df : List RawRecord) (p : Nat × RawRecord)
    (h1 : p ∈ closed_prs_and_issues df) (h2 : pr_filter p.2 = false) :
    (p ∈ issues df ∨ p ∈ issue_comments df) ∧ p ∉ prs df ∧ p ∉ pr_comments df := by
  refine ⟨?_, ?_, ?_⟩
  · cases hc : comment_present p.2
    · exact Or.inl ((mem_issues_iff df p).mpr ⟨h1, h2, hc⟩)
    · exact Or.inr ((mem_issue_comments_iff df p).mpr ⟨h1, h2, hc⟩)
  · intro hm
    have hpr := ((mem_prs_iff df p).mp hm).2.1
    rw [h2] at hpr
    exact Bool.false_ne_true hpr
  · intro hm
    have hpr := ((mem_pr_comments_iff df p).mp hm).2.1
    rw [h2] at hpr
    exact Bool.false_ne_true hpr

/-- **C6 (amended, witness).** The amended theorem applied to the concrete
malformed-URL row. -/
theorem c6_malformed_url_amended_witness :
    ((0, badUrlRec) ∈ issues [badUrlRec] ∨ (0, badUrlRec) ∈ issue_comments [badUrlRec]) ∧
    (0, badUrlRec) ∉ prs [badUrlRec] ∧ (0, badUrlRec) ∉ pr_comments [badUrlRec] :=
  c6_malformed_url_amended [badUrlRec] (0, badUrlRec) (by decide) (by decide)

/-- **C7.** A record whose `closed_at` is absent appears in none of the four
classified sets. -/
theorem c7_open_record_never_classified (df : List RawRecord) (p : Nat × RawRecord)
    (h : p.2.closed_at = none) :
    p ∉ issues df ∧ p ∉ issue_comments df ∧ p ∉ prs df ∧ p ∉ pr_comments df := by
  have hcf : closed_filter p.2 = false := by simp [closed_filter, h]
  have hnc : p ∉ closed_prs_and_issues df := by
    intro hm
    have hcl := ((mem_closed_iff df p).mp hm).2
    rw [hcf] at hcl
    exact Bool.false_ne_true hcl
  refine ⟨?_, ?_, ?_, ?_⟩ <;> intro hm
  · exact hnc ((mem_issues_iff df p).mp hm).1
  · exact hnc ((mem_issue_comments_iff df p).mp hm).1
  · exact hnc ((mem_prs_iff df p).mp hm).1
  · exact hnc ((mem_pr_comments_iff df p).mp hm).1

/-- **C7 (witness).** The exclusion theorem applied to a concrete
never-closed row. -/
theorem c7_open_record_never_classified_witness :
    (0, openRec) ∉ issues [openRec] ∧ (0, openRec) ∉ issue_comments [openRec] ∧
    (0, openRec) ∉ prs [openRec] ∧ (0, openRec) ∉ pr_comments [openRec] :=
  c7_open_record_never_classified [openRec] (0, openRec) rfl

/-- **C8.** For the bug-issue table produced by the `is_bug` mask, any label
count retrieved without exception is at most the number of bug issues, so its
proportion lies in [0, 1]; and counting the label "bug" yields every bug
issue, so its proportion is exactly 1. -/
theorem c8_proportion_bounds (issue_rows bs : List RawRecord) (L : String) (c : Nat)
    (hbs : bug_issues issue_rows = .ok bs)
    (hc : label_count L bs = .ok c)
    (hL : ∃ r ∈ bs, has_label r.labels L = .ok true) :
    0 ≤ label_proportion c bs.length ∧
    label_proportion c bs.length ≤ 1 ∧
    label_count "bug" bs = .ok bs.length ∧
    label_proportion bs.length bs.length = 1 := by
  obtain ⟨r0, hr0, -⟩ := hL
  have hpos : 0 < bs.length := List.length_pos.mpr (by rintro rfl; simp at hr0)
  have hcle : c ≤ bs.length := countTrueE_le _ bs c hc
  have hall : ∀ r ∈ bs, has_label r.labels "bug" = .ok true :=
    fun r hr => filterE_mem _ issue_rows bs hbs r hr
  have hcount : label_count "bug" bs = .ok bs.length := countTrueE_all_true _ bs hall
  have hq : (0 : ℚ) < (bs.length : ℚ) := by exact_mod_cast hpos
  refine ⟨?_, ?_, hcount, ?_⟩
  · unfold label_proportion
    positivity
  · unfold label_proportion
    rw [div_le_one hq]
    exact_mod_cast hcle
  · unfold label_proportion
    exact div_self (ne_of_gt hq)

/-- **C8 (witness).** The proportion theorem applied to the one-row bug-issue
table whose labels are `[{"name": "bug"}]`. -/
theorem c8_proportion_bounds_witness :
    0 ≤ label_proportion 1 [bugIssueRec].length ∧
    label_proportion 1 [bugIssueRec].length ≤ 1 ∧
    label_count "bug" [bugIssueRec] = .ok [bugIssueRec].length ∧
    label_proportion [bugIssueRec].length [bugIssueRec].length = 1 :=
  c8_proportion_bounds [bugIssueRec] [bugIssueRec] "bug" 1 rfl rfl
    ⟨bugIssueRec, by simp, rfl⟩

/-- **C9.** `has_label` is invariant under re-decoding the same encoded
label string: decoding it once more before running the predicate changes
nothing, for successes and failures alike. -/
theorem c9_haslabel_redecode_invariant (item label_name : String) :
    has_label_redecoded item label_name = has_label item label_name := by
  unfold has_label_redecoded
  cases h : json_loads item with
  | error e =>
    simp only [h, except_bind_error]
    simp only [has_label, h, except_bind_error]
  | ok j =>
    simp only [h, except_bind_ok]

/-- **C10.** A closed record is classified pull-request-related exactly when
"pull" occurs somewhere as a substring of its `html_url`, and issue-related
exactly when it does not; no path structure is examined. -/
theorem c10_pull_marker_criterion (df : List RawRecord) (p : Nat × RawRecord)
    (h : p ∈ closed_prs_and_issues df) :
    ((p ∈ prs df ∨ p ∈ pr_comments df) ↔ "pull".toList <:+: p.2.html_url.toList) ∧
    ((p ∈ issues df ∨ p ∈ issue_comments df) ↔
      ¬ "pull".toList <:+: p.2.html_url.toList) := by
  have hinf := containsSub_iff_infix "pull".toList p.2.html_url.toList
  have hA : (p ∈ prs df ∨ p ∈ pr_comments df) ↔ pr_filter p.2 = true := by
    rw [mem_prs_iff, mem_pr_comments_iff]
    cases hc : comment_present p.2 <;> simp [h, hc]
  have hB : (p ∈ issues df ∨ p ∈ issue_comments df) ↔ pr_filter p.2 = false := by
    rw [mem_issues_iff, mem_issue_comments_iff]
    cases hc : comment_present p.2 <;> simp [h, hc]
  constructor
  · rw [hA]
    simp only [pr_filter, str_contains]
    exact hinf
  · rw [hB]
    simp only [pr_filter, str_contains]
    rw [← hinf]
    simp

/-- **C10 (witness).** The criterion applied to the concrete pull-request
head row of the two-row export. -/
theorem c10_pull_marker_criterion_witness :
    (((0, prHeadRec) ∈ prs dfLink ∨ (0, prHeadRec) ∈ pr_comments dfLink) ↔
      "pull".toList <:+: prHeadRec.html_url.toList) ∧
    (((0, prHeadRec) ∈ issues dfLink ∨ (0, prHeadRec) ∈ issue_comments dfLink) ↔
      ¬ "pull".toList <:+: prHeadRec.html_url.toList) :=
  c10_pull_marker_criterion dfLink (0, prHeadRec) (by decide)
